import Mathlib

/-!
# Verification of the pdf-thumbnail pipeline

A shallow embedding of the thumbnail-generation pipeline of the
`mkholt/pdf-thumbnail` package, translated from `src/src/lib/pdf.ts`
(`createThumbnail`, `createThumbnails`, `getResult`, `makeThumbOfPage`) and,
for the parts of the latest revision that are not in the snapshot (the
structured-error results, the zero-page check, and the bounded worker pool of
the batch orchestrator), modelled from the specification, its type
declarations (`StringThumbnail`/`BufferThumbnail`/`ErrorThumbnail`) and the
unit tests that exercise them.

External collaborators (the PDF engine and the pixel surface) are modelled at
their interface boundary: a document handle yields a page handle, a page
renders to a canvas, and a canvas encodes its pixel content to PNG bytes,
exposed either raw (`toBuffer`) or as a base64 data URL (`toDataURL`).
-/

/-- Raw byte sequences (JS `Buffer` contents); a byte is a `Nat < 256`. -/
abbrev Bytes := List Nat

/-- The result union from `src/types`: `StringThumbnail`, `BufferThumbnail`
and `ErrorThumbnail` share the discriminant `thumbType` and payload
`thumbData`; each constructor is one variant. -/
inductive Thumbnail
  | stringThumb (thumbData : String)
  | bufferThumb (thumbData : Bytes)
  | errorThumb (thumbData : String)
  deriving DecidableEq, Repr

/-! ## Base64 encoding (boundary model of the PNG data-URL encoding)

JS `canvas.toDataURL("image/png")` produces `"data:image/png;base64," ++ b64`
where `b64` is the base64 encoding of the PNG bytes, and
`Buffer.from(s, "base64")` decodes it; both are modelled by the standard
base64 algorithm below. -/

/-- The 64-character base64 alphabet, in sextet order. -/
def b64Alphabet : List Char :=
  "ABCDEFGHIJKLMNOPQRSTUVWXYZabcdefghijklmnopqrstuvwxyz0123456789+/".data

/-- The alphabet character of a sextet value (`n < 64`). -/
def sextetChar (n : Nat) : Char := b64Alphabet.getD n '='

/-- The sextet value of an alphabet character. -/
def charSextet (c : Char) : Nat := b64Alphabet.indexOf c

/-- Base64-encode a byte sequence, three bytes to four characters, with `=`
padding for a trailing group of one or two bytes. -/
def base64EncodeChars : Bytes → List Char
  | [] => []
  | [a] => [sextetChar (a / 4), sextetChar (a % 4 * 16), '=', '=']
  | [a, b] => [sextetChar (a / 4), sextetChar (a % 4 * 16 + b / 16),
      sextetChar (b % 16 * 4), '=']
  | a :: b :: c :: rest =>
      sextetChar (a / 4) :: sextetChar (a % 4 * 16 + b / 16) ::
      sextetChar (b % 16 * 4 + c / 64) :: sextetChar (c % 64) ::
      base64EncodeChars rest

/-- Base64-decode a character sequence, four characters to three bytes,
honouring `=` padding. -/
def base64DecodeChars : List Char → Bytes
  | w :: x :: y :: z :: rest =>
      if y = '=' then [charSextet w * 4 + charSextet x / 16]
      else if z = '=' then
        [charSextet w * 4 + charSextet x / 16,
         charSextet x % 16 * 16 + charSextet y / 4]
      else
        (charSextet w * 4 + charSextet x / 16) ::
        (charSextet x % 16 * 16 + charSextet y / 4) ::
        (charSextet y % 4 * 64 + charSextet z) :: base64DecodeChars rest
  | _ => []

/-- String-level base64 encoding. -/
def base64Encode (bs : Bytes) : String := ⟨base64EncodeChars bs⟩

/-- String-level base64 decoding (JS `Buffer.from(s, "base64")`). -/
def base64Decode (s : String) : Bytes := base64DecodeChars s.data

/-! ## JS `String.prototype.split` with a one-character separator -/

/-- Split a character list at every occurrence of `sep` (JS
`s.split(sep)` semantics: `n` separators yield `n + 1` fields). -/
def splitChar (sep : Char) : List Char → List (List Char)
  | [] => [[]]
  | c :: rest =>
      let r := splitChar sep rest
      if c = sep then [] :: r else (c :: r.headI) :: r.tail

/-- JS `s.split(sep)` for a single-character separator. -/
def jsSplit (s : String) (sep : Char) : List String :=
  (splitChar sep s.data).map fun l => ⟨l⟩

/-! ## The pixel surface (canvas) at its interface boundary -/

/-- A painted pixel surface, identified by the PNG encoding of its content.
`toDataURL` and `toBuffer` both encode this same content. -/
structure Canvas where
  png : Bytes
  deriving DecidableEq, Repr

/-- JS `canvas.toDataURL("image/png")`: base64 data URL of the PNG content. -/
def Canvas.toDataURL (c : Canvas) : String :=
  "data:image/png;base64," ++ base64Encode c.png

/-- JS `canvas.toBuffer("image/png")`: the raw PNG bytes of the content. -/
def Canvas.toBuffer (c : Canvas) : Bytes := c.png

/-- The tagged canvas union from `src/src/lib/pdf.ts` (`CanvasType`): an
HTML canvas in the browser, a `canvas`-package canvas in Node. -/
inductive CanvasType
  | html (canvas : Canvas)
  | node (canvas : Canvas)
  deriving DecidableEq, Repr

/-- The `canvas` field shared by both variants. -/
def CanvasType.canvas : CanvasType → Canvas
  | .html c => c
  | .node c => c

/-- Function `getResult` from `src/src/lib/pdf.ts` (lines 220–239): encode the painted
canvas as the requested output variant.  For `"buffer"` output a Node canvas
encodes directly to PNG bytes while an HTML canvas decodes the base64 part of
its data URL; for `"string"` output the data URL itself is returned. -/
def getResult (canvasInfo : CanvasType) (toBuffer : Bool) : Thumbnail :=
  let dataUrl := canvasInfo.canvas.toDataURL
  if toBuffer then
    .bufferThumb (match canvasInfo with
      | .node c => c.toBuffer
      | .html _ => base64Decode ((jsSplit dataUrl ',').getD 1 ""))
  else
    .stringThumb dataUrl

/-- A byte sequence is valid when every element is below 256. -/
def ValidBytes (bs : Bytes) : Prop := ∀ b ∈ bs, b < 256

/-! ## Lemmas about base64 and splitting -/

theorem b64Alphabet_length : b64Alphabet.length = 64 := by decide

theorem comma_ne_sextetChar (n : Nat) : ¬(',' = sextetChar n) := by
  by_cases h : n < 64
  · revert n; decide
  · unfold sextetChar
    rw [List.getD_eq_default]
    · decide
    · rw [b64Alphabet_length]; omega

theorem comma_not_mem_encode (bs : Bytes) : ',' ∉ base64EncodeChars bs := by
  induction bs using base64EncodeChars.induct with
  | case1 => simp [base64EncodeChars]
  | case2 a => simp [base64EncodeChars, comma_ne_sextetChar]
  | case3 a b => simp [base64EncodeChars, comma_ne_sextetChar]
  | case4 a b c rest ih => simp [base64EncodeChars, comma_ne_sextetChar]; exact ih

theorem charSextet_sextetChar : ∀ n < 64, charSextet (sextetChar n) = n := by decide

theorem sextetChar_ne_pad : ∀ n < 64, ¬(sextetChar n = '=') := by decide

/-- Decoding inverts encoding on valid byte sequences. -/
theorem base64DecodeChars_encodeChars (bs : Bytes) (h : ValidBytes bs) :
    base64DecodeChars (base64EncodeChars bs) = bs := by
  induction bs using base64EncodeChars.induct with
  | case1 => rfl
  | case2 a =>
      have ha : a < 256 := h a (by simp)
      rw [base64EncodeChars, base64DecodeChars]
      rw [if_pos rfl]
      rw [charSextet_sextetChar _ (by omega), charSextet_sextetChar _ (by omega)]
      congr 1
      omega
  | case3 a b =>
      have ha : a < 256 := h a (by simp)
      have hb : b < 256 := h b (by simp)
      rw [base64EncodeChars, base64DecodeChars]
      rw [if_neg (sextetChar_ne_pad _ (by omega)), if_pos rfl]
      rw [charSextet_sextetChar _ (by omega), charSextet_sextetChar _ (by omega),
          charSextet_sextetChar _ (by omega)]
      congr 1
      · omega
      · congr 1; omega
  | case4 a b c rest ih =>
      have ha : a < 256 := h a (by simp)
      have hb : b < 256 := h b (by simp)
      have hc : c < 256 := h c (by simp)
      rw [base64EncodeChars, base64DecodeChars]
      rw [if_neg (sextetChar_ne_pad _ (by omega)),
          if_neg (sextetChar_ne_pad _ (by omega))]
      rw [charSextet_sextetChar _ (by omega), charSextet_sextetChar _ (by omega),
          charSextet_sextetChar _ (by omega), charSextet_sextetChar _ (by omega)]
      rw [ih (fun b hbm => h b (by simp [hbm]))]
      congr 1
      · omega
      · congr 1
        · omega
        · congr 1; omega

theorem splitChar_no_sep (sep : Char) (l : List Char) (h : sep ∉ l) :
    splitChar sep l = [l] := by
  induction l with
  | nil => rfl
  | cons c rest ih =>
      rw [splitChar]
      simp only [ih (fun hm => h (List.mem_cons_of_mem _ hm))]
      rw [if_neg (fun hc : c = sep => h (hc ▸ List.mem_cons_self c rest))]
      rfl

theorem splitChar_append (sep : Char) (xs ys : List Char) (h : sep ∉ xs) :
    splitChar sep (xs ++ sep :: ys) = xs :: splitChar sep ys := by
  induction xs with
  | nil =>
      simp only [List.nil_append]
      rw [splitChar]
      simp
  | cons c rest ih =>
      rw [List.cons_append, splitChar]
      simp only [ih (fun hm => h (List.mem_cons_of_mem _ hm))]
      rw [if_neg (fun hc : c = sep => h (hc ▸ List.mem_cons_self c rest))]
      rfl

/-- The part after the comma of a PNG data URL is the base64 body. -/
theorem jsSplit_dataURL (bs : Bytes) :
    (jsSplit ("data:image/png;base64," ++ base64Encode bs) ',').getD 1 ""
      = base64Encode bs := by
  unfold jsSplit
  rw [String.data_append]
  have hpre : ("data:image/png;base64,").data
      = ("data:image/png;base64").data ++ [','] := by decide
  rw [hpre, List.append_assoc, List.singleton_append]
  rw [splitChar_append ',' _ _ (by decide)]
  have hdata : (base64Encode bs).data = base64EncodeChars bs := rfl
  rw [hdata, splitChar_no_sep ',' _ (comma_not_mem_encode bs)]
  rfl

/-- Round trip through the string representation. -/
theorem base64Decode_encode (bs : Bytes) (h : ValidBytes bs) :
    base64Decode (base64Encode bs) = bs :=
  base64DecodeChars_encodeChars bs h

/-! ## The single-item pipeline (`createThumbnail`)

The pipeline signature and control flow are translated from
`src/src/lib/pdf.ts` lines 93–150: an abort check before start, the document
load with an abort listener attached for its duration, an abort check after
the load, page clamping, the page fetch, an abort check after the fetch,
render/encode, and a catch block that returns `undefined` when the signal is
observed aborted.  The latest revision's conversion of caught errors into
`ErrorThumbnail` results and its zero-page check are modelled from the spec
(§4.5) and the package's unit tests, as that revision of the file is not in
the snapshot. -/

/-- A JS value thrown at the pipeline boundary: an `Error` object carrying a
message, or any other value together with its string conversion. -/
inductive ThrownValue
  | errorObj (message : String)
  | nonError (stringified : String)
  deriving DecidableEq, Repr

/-- Modelled from the spec: the latest revision's error-to-message
conversion — an `Error`'s own message is used, non-`Error` thrown values are
stringified. -/
def getErrorMessage : ThrownValue → String
  | .errorObj m => m
  | .nonError s => s

/-- A fetched page handle: rendering at a scale paints and yields a canvas,
or raises. -/
structure PdfPageHandle where
  render : Int → Except ThrownValue CanvasType

/-- An opened document handle: page count plus the page fetch, which may
raise. -/
structure PdfDocumentHandle where
  numPages : Nat
  getPage : Nat → Except ThrownValue PdfPageHandle

/-- The PDF engine at its interface boundary: loading and parsing a file
yields a document handle or raises. -/
structure PdfEnv where
  getDocument : String → Except ThrownValue PdfDocumentHandle

/-- An abort signal as observed by one call: the value returned by its
`k`-th poll of `signal.aborted` (polls are counted from 0 in program
order, as in the package's mock-signal tests). -/
abbrev AbortSignal := Nat → Bool

/-- Options of `createThumbnail` (`CreateThumbnailOptions` in the source;
`logLevel` is omitted as it has no effect on returned data). -/
structure CreateThumbnailOptions where
  output : Option String := none
  scale : Option Int := none
  page : Option Int := none
  signal : Option AbortSignal := none

/-- Observable resource effects of one pipeline run. -/
inductive Event
  | addAbortListener
  | removeAbortListener
  | destroyDoc
  deriving DecidableEq, Repr

/-- The outcome of one pipeline run: the resolved value (`none` = the JS
`undefined`) and the emitted resource events in order. -/
structure PipelineRun where
  result : Option Thumbnail
  events : List Event
  deriving DecidableEq, Repr

/-- Reading `signal?.aborted`: polls the signal if present, advancing the poll
counter; absent signals read falsy without consuming a poll. -/
def pollAborted : Option AbortSignal → Nat → Bool × Nat
  | none, k => (false, k)
  | some f, k => (f k, k + 1)

/-- Function `makeThumbOfPage` from the source: render the page to a canvas at the
requested scale, then encode it via `getResult`. -/
def makeThumbOfPage (pageObj : PdfPageHandle) (toBuffer : Bool) (scale : Int) :
    Except ThrownValue Thumbnail :=
  (pageObj.render scale).map fun canvasInfo => getResult canvasInfo toBuffer

/-- Modelled from the spec: the error message of the latest revision's
zero-page check ("no pages" per the spec §4.2/§7 and the unit test). -/
def noPagesMessage : String := "PDF has no pages"

/-- The abort-listener events of the load stage: the listener is attached
before awaiting the parse and removed in a `finally` once it settles
(source lines 107–116). -/
def loadListenerEvents : Option AbortSignal → List Event
  | none => []
  | some _ => [.addAbortListener, .removeAbortListener]

/-- Function `createThumbnail` (source lines 93–150, with the latest revision's
structured errors and zero-page check modelled from the spec).  The stage
outcomes come from `env`; the signal is polled in program order. -/
def createThumbnail (file : String) (options : CreateThumbnailOptions)
    (env : PdfEnv) : PipelineRun :=
  let page : Int := options.page.getD 1
  let toBuffer : Bool := options.output == some "buffer"
  let sig := options.signal
  -- checkpoint: operation aborted before start (line 97)
  let (a0, k1) := pollAborted sig 0
  if a0 then ⟨none, []⟩
  else
    let evs := loadListenerEvents sig
    match env.getDocument file with
    | .error e =>
        -- the load raised: catch block (lines 142–149)
        let (aC, _) := pollAborted sig k1
        if aC then ⟨none, evs⟩
        else ⟨some (.errorThumb (getErrorMessage e)), evs⟩
    | .ok doc =>
        -- checkpoint: operation aborted after document load (line 118)
        let (a1, k2) := pollAborted sig k1
        if a1 then ⟨none, evs ++ [.destroyDoc]⟩
        else if doc.numPages = 0 then
          -- Modelled from the spec: zero-page documents fail with a
          -- "no pages" error and the session is closed
          ⟨some (.errorThumb noPagesMessage), evs ++ [.destroyDoc]⟩
        else
          let pageToFetch : Int := max 1 (min page (doc.numPages : Int))
          match doc.getPage pageToFetch.toNat with
          | .error e =>
              -- the page fetch raised: catch block; the session is closed
              -- on the way out (Modelled from the spec: close on every path)
              let (aC, _) := pollAborted sig k2
              if aC then ⟨none, evs ++ [.destroyDoc]⟩
              else ⟨some (.errorThumb (getErrorMessage e)), evs ++ [.destroyDoc]⟩
          | .ok pageObj =>
              -- checkpoint: operation aborted after page fetch (line 129)
              let (a2, k3) := pollAborted sig k2
              if a2 then ⟨none, evs ++ [.destroyDoc]⟩
              else
                match makeThumbOfPage pageObj toBuffer (options.scale.getD 1) with
                | .error e =>
                    -- render/encode raised: catch block, session closed
                    -- (Modelled from the spec: close on every path)
                    let (aC, _) := pollAborted sig k3
                    if aC then ⟨none, evs ++ [.destroyDoc]⟩
                    else ⟨some (.errorThumb (getErrorMessage e)), evs ++ [.destroyDoc]⟩
                | .ok pageThumb =>
                    ⟨some pageThumb, evs ++ [.destroyDoc]⟩

/-- A signal view that never reads aborted (also covers an absent signal). -/
def SignalNeverAborted : Option AbortSignal → Prop
  | none => True
  | some f => ∀ k, f k = false

/-- Helper: under a never-aborted signal the run is fully determined by the
stage outcomes. -/
theorem createThumbnail_eq_of_never_aborted (file : String)
    (options : CreateThumbnailOptions) (env : PdfEnv)
    (h : SignalNeverAborted options.signal) :
    createThumbnail file options env =
      match env.getDocument file with
      | .error e =>
          ⟨some (.errorThumb (getErrorMessage e)), loadListenerEvents options.signal⟩
      | .ok doc =>
          if doc.numPages = 0 then
            ⟨some (.errorThumb noPagesMessage),
              loadListenerEvents options.signal ++ [.destroyDoc]⟩
          else
            match doc.getPage (max 1 (min (options.page.getD 1)
                (doc.numPages : Int))).toNat with
            | .error e =>
                ⟨some (.errorThumb (getErrorMessage e)),
                  loadListenerEvents options.signal ++ [.destroyDoc]⟩
            | .ok pageObj =>
                match makeThumbOfPage pageObj (options.output == some "buffer")
                    (options.scale.getD 1) with
                | .error e =>
                    ⟨some (.errorThumb (getErrorMessage e)),
                      loadListenerEvents options.signal ++ [.destroyDoc]⟩
                | .ok pageThumb =>
                    ⟨some pageThumb,
                      loadListenerEvents options.signal ++ [.destroyDoc]⟩ := by
  cases hsig : options.signal with
  | none =>
      simp only [createThumbnail, hsig, pollAborted]
      cases env.getDocument file with
      | error e => rfl
      | ok doc =>
          by_cases hnp : doc.numPages = 0
          · simp [hnp]
          · simp only [hnp, if_false]
            cases doc.getPage (max 1 (min (options.page.getD 1)
                (doc.numPages : Int))).toNat with
            | error e => rfl
            | ok pageObj =>
                cases makeThumbOfPage pageObj (options.output == some "buffer")
                    (options.scale.getD 1) with
                | error e => rfl
                | ok pageThumb => rfl
  | some f =>
      have h' : ∀ k, f k = false := by rw [hsig] at h; exact h
      simp only [createThumbnail, hsig, pollAborted, h', Bool.false_eq_true, if_false]

/-- Helper: the resource events of a run are determined by the first poll and
the load outcome — every post-open path closes the document exactly once. -/
theorem createThumbnail_events (file : String) (options : CreateThumbnailOptions)
    (env : PdfEnv) :
    (createThumbnail file options env).events =
      if (pollAborted options.signal 0).1 then []
      else
        match env.getDocument file with
        | .error _ => loadListenerEvents options.signal
        | .ok _ => loadListenerEvents options.signal ++ [.destroyDoc] := by
  cases hsig : options.signal with
  | none =>
      simp only [createThumbnail, hsig, pollAborted, Bool.false_eq_true, if_false]
      cases env.getDocument file with
      | error e => rfl
      | ok doc =>
          by_cases hnp : doc.numPages = 0
          · simp [hnp]
          · simp only [hnp, if_false]
            cases doc.getPage (max 1 (min (options.page.getD 1)
                (doc.numPages : Int))).toNat with
            | error e => rfl
            | ok pageObj =>
                dsimp only
                cases makeThumbOfPage pageObj (options.output == some "buffer")
                    (options.scale.getD 1) with
                | error e => rfl
                | ok pageThumb => rfl
  | some f =>
      simp only [createThumbnail, hsig, pollAborted]
      by_cases h0 : f 0 = true
      · simp [h0]
      · simp only [h0, if_false]
        cases env.getDocument file with
        | error e =>
            by_cases h1 : f 1 = true <;> simp [h1]
        | ok doc =>
            by_cases h1 : f 1 = true
            · simp [h1]
            · simp only [h1, if_false]
              by_cases hnp : doc.numPages = 0
              · simp [hnp]
              · simp only [hnp, if_false]
                cases doc.getPage (max 1 (min (options.page.getD 1)
                    (doc.numPages : Int))).toNat with
                | error e =>
                    by_cases h2 : f 2 = true <;> simp [h2]
                | ok pageObj =>
                    dsimp only
                    by_cases h2 : f 2 = true
                    · simp [h2]
                    · simp only [h2, Bool.false_eq_true, if_false]
                      cases makeThumbOfPage pageObj (options.output == some "buffer")
                          (options.scale.getD 1) with
                      | error e =>
                          by_cases h3 : f 3 = true <;> simp [h3]
                      | ok pageThumb => rfl

/-! ## Claim C8: buffer output matches the string output byte for byte -/

/-- C8: for the same rendered surface state, the payload produced under
output `"buffer"` equals, byte for byte, the base64 decoding of the portion
after the comma of the data-URL string produced under output `"string"`. -/
theorem getResult_buffer_matches_string (canvasInfo : CanvasType)
    (h : ValidBytes canvasInfo.canvas.png) :
    ∃ s : String, getResult canvasInfo false = .stringThumb s
      ∧ getResult canvasInfo true
          = .bufferThumb (base64Decode ((jsSplit s ',').getD 1 "")) := by
  refine ⟨canvasInfo.canvas.toDataURL, rfl, ?_⟩
  cases canvasInfo with
  | html c => rfl
  | node c =>
      show Thumbnail.bufferThumb c.toBuffer = _
      have hsplit : (jsSplit ((CanvasType.node c).canvas.toDataURL) ',').getD 1 ""
          = base64Encode c.png := jsSplit_dataURL c.png
      rw [hsplit, base64Decode_encode c.png h, Canvas.toBuffer]

/-- Witness for C8 at a concrete canvas. -/
theorem getResult_buffer_matches_string_witness :
    ∃ s : String, getResult (.node ⟨[137, 80, 78, 71]⟩) false = .stringThumb s
      ∧ getResult (.node ⟨[137, 80, 78, 71]⟩) true
          = .bufferThumb (base64Decode ((jsSplit s ',').getD 1 "")) :=
  getResult_buffer_matches_string (.node ⟨[137, 80, 78, 71]⟩)
    (by unfold ValidBytes; decide)

/-! ## Concrete sample data used by the witnesses -/

/-- Options with every field defaulted. -/
def defaultOptions : CreateThumbnailOptions := ⟨none, none, none, none⟩

/-- Options carrying a signal that always reads aborted. -/
def abortedOptions : CreateThumbnailOptions := ⟨none, none, none, some fun _ => true⟩

/-- Options carrying a signal that never reads aborted. -/
def liveOptions : CreateThumbnailOptions := ⟨none, none, none, some fun _ => false⟩

/-- A sample page that renders to a Node canvas. -/
def samplePage : PdfPageHandle := ⟨fun _ => .ok (.node ⟨[1, 2, 3]⟩)⟩

/-- A sample two-page document. -/
def sampleDoc : PdfDocumentHandle := ⟨2, fun _ => .ok samplePage⟩

/-- A sample zero-page document. -/
def zeroPagesDoc : PdfDocumentHandle := ⟨0, fun _ => .error (.nonError "no page")⟩

/-- A sample engine: `"a.pdf"` parses to `sampleDoc`, anything else raises. -/
def sampleEnv : PdfEnv :=
  ⟨fun file => if file = "a.pdf" then .ok sampleDoc else .error (.errorObj "ENOENT")⟩

/-- A sample engine where every file parses to the zero-page document. -/
def zeroPagesEnv : PdfEnv := ⟨fun _ => .ok zeroPagesDoc⟩

/-! ## Claim C1: non-aborted calls always resolve to a populated result -/

/-- C1: for every call whose cancellation signal is never observed aborted,
the pipeline resolves to a populated result: the raising of any stage (load,
page fetch, render/encode) yields an `ErrorThumbnail` carrying that error's
message (non-`Error` thrown values stringified), an all-stages-succeed run
yields the encoded thumbnail, and `undefined` is never returned. -/
theorem createThumbnail_not_aborted_populated (file : String)
    (options : CreateThumbnailOptions) (env : PdfEnv)
    (h : SignalNeverAborted options.signal) :
    ((createThumbnail file options env).result.isSome = true)
    ∧ (∀ e, env.getDocument file = .error e →
        (createThumbnail file options env).result
          = some (.errorThumb (getErrorMessage e)))
    ∧ (∀ doc e, env.getDocument file = .ok doc → doc.numPages ≠ 0 →
        doc.getPage (max 1 (min (options.page.getD 1) (doc.numPages : Int))).toNat
          = .error e →
        (createThumbnail file options env).result
          = some (.errorThumb (getErrorMessage e)))
    ∧ (∀ doc pageObj e, env.getDocument file = .ok doc → doc.numPages ≠ 0 →
        doc.getPage (max 1 (min (options.page.getD 1) (doc.numPages : Int))).toNat
          = .ok pageObj →
        pageObj.render (options.scale.getD 1) = .error e →
        (createThumbnail file options env).result
          = some (.errorThumb (getErrorMessage e)))
    ∧ (∀ doc pageObj canvasInfo, env.getDocument file = .ok doc →
        doc.numPages ≠ 0 →
        doc.getPage (max 1 (min (options.page.getD 1) (doc.numPages : Int))).toNat
          = .ok pageObj →
        pageObj.render (options.scale.getD 1) = .ok canvasInfo →
        (createThumbnail file options env).result
          = some (getResult canvasInfo (options.output == some "buffer"))) := by
  have hrun := createThumbnail_eq_of_never_aborted file options env h
  refine ⟨?_, ?_, ?_, ?_, ?_⟩
  · rw [hrun]
    cases hdoc : env.getDocument file with
    | error e => rfl
    | ok doc =>
        by_cases hnp : doc.numPages = 0
        · simp [hnp]
        · simp only [hnp, if_false]
          cases doc.getPage (max 1 (min (options.page.getD 1)
              (doc.numPages : Int))).toNat with
          | error e => rfl
          | ok pageObj =>
              dsimp only
              cases makeThumbOfPage pageObj (options.output == some "buffer")
                  (options.scale.getD 1) with
              | error e => rfl
              | ok pageThumb => rfl
  · intro e he
    rw [hrun, he]
  · intro doc e hdoc hnp hpg
    rw [hrun, hdoc]
    simp only [hnp, if_false, hpg]
  · intro doc pageObj e hdoc hnp hpg hr
    rw [hrun, hdoc]
    simp only [hnp, if_false, hpg]
    have hmk : makeThumbOfPage pageObj (options.output == some "buffer")
        (options.scale.getD 1) = .error e := by
      unfold makeThumbOfPage
      rw [hr]
      rfl
    rw [hmk]
  · intro doc pageObj canvasInfo hdoc hnp hpg hr
    rw [hrun, hdoc]
    simp only [hnp, if_false, hpg]
    have hmk : makeThumbOfPage pageObj (options.output == some "buffer")
        (options.scale.getD 1)
        = .ok (getResult canvasInfo (options.output == some "buffer")) := by
      unfold makeThumbOfPage
      rw [hr]
      rfl
    rw [hmk]

/-- Witness for C1: a load failure with no signal resolves to the
`ErrorThumbnail` carrying the thrown error's message. -/
theorem createThumbnail_not_aborted_populated_witness :
    (createThumbnail "missing.pdf" defaultOptions sampleEnv).result
      = some (.errorThumb (getErrorMessage (.errorObj "ENOENT"))) :=
  (createThumbnail_not_aborted_populated "missing.pdf" defaultOptions sampleEnv
    trivial).2.1 (.errorObj "ENOENT") rfl

/-! ## Claim C3: the document session is closed exactly once -/

/-- C3: whenever the document is successfully opened (the call was not
aborted before starting and the load resolved), the session teardown
`doc.destroy()` happens exactly once before the call returns, on every exit
path — normal return, abort observed after the open, and any error raised
after the open. -/
theorem createThumbnail_destroys_doc_once (file : String)
    (options : CreateThumbnailOptions) (env : PdfEnv) (doc : PdfDocumentHandle)
    (hstart : (pollAborted options.signal 0).1 = false)
    (hdoc : env.getDocument file = .ok doc) :
    (createThumbnail file options env).events.count .destroyDoc = 1 := by
  rw [createThumbnail_events, hstart, hdoc]
  cases options.signal <;> rfl

/-- Witness for C3. -/
theorem createThumbnail_destroys_doc_once_witness :
    (createThumbnail "a.pdf" defaultOptions sampleEnv).events.count .destroyDoc
      = 1 :=
  createThumbnail_destroys_doc_once "a.pdf" defaultOptions sampleEnv sampleDoc
    rfl rfl

/-! ## Claim C4: zero-page documents yield a "no pages" error result -/

/-- C4: a call on a document that parses successfully but has zero pages
resolves (when not aborted) to an `ErrorThumbnail` whose message identifies
"no pages"; it is neither a success variant nor `undefined`. -/
theorem createThumbnail_zero_pages_error (file : String)
    (options : CreateThumbnailOptions) (env : PdfEnv) (doc : PdfDocumentHandle)
    (h : SignalNeverAborted options.signal)
    (hdoc : env.getDocument file = .ok doc)
    (hnp : doc.numPages = 0) :
    (createThumbnail file options env).result = some (.errorThumb noPagesMessage)
    ∧ "no pages".data <:+: noPagesMessage.data
    ∧ (∀ s, (createThumbnail file options env).result ≠ some (.stringThumb s))
    ∧ (∀ b, (createThumbnail file options env).result ≠ some (.bufferThumb b))
    ∧ (createThumbnail file options env).result ≠ none := by
  have hrun := createThumbnail_eq_of_never_aborted file options env h
  rw [hrun, hdoc]
  simp only [hnp, if_true]
  exact ⟨by simp, by decide, by simp, by simp, by simp⟩

/-- Witness for C4. -/
theorem createThumbnail_zero_pages_error_witness :
    (createThumbnail "a.pdf" defaultOptions zeroPagesEnv).result
      = some (.errorThumb noPagesMessage) :=
  (createThumbnail_zero_pages_error "a.pdf" defaultOptions zeroPagesEnv
    zeroPagesDoc trivial rfl rfl).1

/-! ## Claim C6: abort takes precedence over error reporting -/

/-- C6: a signal already aborted at the first poll makes the call resolve to
`undefined` for every environment, including ones whose load raises; and when
a stage raises but the signal reads aborted at the moment the error is caught
(in the catch block), the call likewise resolves to `undefined` rather than
an `ErrorThumbnail`. -/
theorem createThumbnail_abort_precedence (file : String)
    (options : CreateThumbnailOptions) (env : PdfEnv) (f : AbortSignal)
    (hsig : options.signal = some f) :
    (f 0 = true → (createThumbnail file options env).result = none)
    ∧ (∀ e, f 0 = false → env.getDocument file = .error e → f 1 = true →
        (createThumbnail file options env).result = none)
    ∧ (∀ doc e, f 0 = false → env.getDocument file = .ok doc → f 1 = false →
        doc.numPages ≠ 0 →
        doc.getPage (max 1 (min (options.page.getD 1) (doc.numPages : Int))).toNat
          = .error e →
        f 2 = true → (createThumbnail file options env).result = none)
    ∧ (∀ doc pageObj e, f 0 = false → env.getDocument file = .ok doc →
        f 1 = false → doc.numPages ≠ 0 →
        doc.getPage (max 1 (min (options.page.getD 1) (doc.numPages : Int))).toNat
          = .ok pageObj →
        f 2 = false → pageObj.render (options.scale.getD 1) = .error e →
        f 3 = true → (createThumbnail file options env).result = none) := by
  refine ⟨?_, ?_, ?_, ?_⟩
  · intro h0
    simp [createThumbnail, hsig, pollAborted, h0]
  · intro e h0 hload h1
    simp [createThumbnail, hsig, pollAborted, h0, hload, h1]
  · intro doc e h0 hload h1 hnp hpg h2
    simp [createThumbnail, hsig, pollAborted, h0, hload, h1, hnp, hpg, h2]
  · intro doc pageObj e h0 hload h1 hnp hpg h2 hr h3
    have hmk : makeThumbOfPage pageObj (options.output == some "buffer")
        (options.scale.getD 1) = .error e := by
      unfold makeThumbOfPage
      rw [hr]
      rfl
    simp [createThumbnail, hsig, pollAborted, h0, hload, h1, hnp, hpg, h2, hmk, h3]

/-- Witness for C6: a pre-aborted signal yields `undefined` on a file whose
load would raise. -/
theorem createThumbnail_abort_precedence_witness :
    (createThumbnail "missing.pdf" abortedOptions sampleEnv).result = none :=
  (createThumbnail_abort_precedence "missing.pdf" abortedOptions sampleEnv
    (fun _ => true) rfl).1 rfl

/-! ## Claim C9: the requested page is clamped to the valid range -/

/-- Helper: two requested pages with the same clamped value give the same
run. -/
theorem createThumbnail_page_congr (file : String) (env : PdfEnv)
    (output : Option String) (scale : Option Int) (signal : Option AbortSignal)
    (p q : Int)
    (h : ∀ doc : PdfDocumentHandle, env.getDocument file = .ok doc →
      max 1 (min p (doc.numPages : Int)) = max 1 (min q (doc.numPages : Int))) :
    createThumbnail file ⟨output, scale, some p, signal⟩ env
      = createThumbnail file ⟨output, scale, some q, signal⟩ env := by
  unfold createThumbnail
  cases hdoc : env.getDocument file with
  | error e => rfl
  | ok doc =>
      have hc := h doc hdoc
      simp only [Option.getD_some, hc]

/-- C9: requesting page 0 or any negative page behaves identically to
requesting page 1, and requesting a page at or beyond the document's page
count N behaves identically to requesting page N — the page number is
clamped to the valid range before the fetch. -/
theorem createThumbnail_page_clamped (file : String) (env : PdfEnv)
    (output : Option String) (scale : Option Int)
    (signal : Option AbortSignal) :
    (∀ p : Int, p ≤ 0 →
      createThumbnail file ⟨output, scale, some p, signal⟩ env
        = createThumbnail file ⟨output, scale, some 1, signal⟩ env)
    ∧ (∀ (p : Int) (doc : PdfDocumentHandle), env.getDocument file = .ok doc →
        (doc.numPages : Int) ≤ p →
        createThumbnail file ⟨output, scale, some p, signal⟩ env
          = createThumbnail file ⟨output, scale,
              some (doc.numPages : Int), signal⟩ env) := by
  constructor
  · intro p hp
    apply createThumbnail_page_congr
    intro doc _
    have : (0 : Int) ≤ (doc.numPages : Int) := Int.natCast_nonneg _
    omega
  · intro p doc hdoc hp
    apply createThumbnail_page_congr
    intro doc2 hdoc2
    rw [hdoc] at hdoc2
    cases hdoc2
    omega

/-- Witness for C9: page −5 behaves like page 1 on a sample document. -/
theorem createThumbnail_page_clamped_witness :
    createThumbnail "a.pdf" ⟨none, none, some (-5), none⟩ sampleEnv
      = createThumbnail "a.pdf" ⟨none, none, some 1, none⟩ sampleEnv :=
  (createThumbnail_page_clamped "a.pdf" sampleEnv none none none).1 (-5)
    (by decide)

/-! ## Claim C10: the abort listener does not outlive the load stage -/

/-- Listener bookkeeping events. -/
def isListenerEvent : Event → Bool
  | .addAbortListener => true
  | .removeAbortListener => true
  | .destroyDoc => false

/-- C10: when a cancellation signal is given and the call reaches the load
stage, the abort listener attached before awaiting the parse is removed once
the parse settles — on the resolve path and on the reject path alike (the
removal sits in a `finally`) — so no listener stays registered after the load
stage; a call aborted before the load never attaches one. -/
theorem createThumbnail_abort_listener_removed (file : String)
    (options : CreateThumbnailOptions) (env : PdfEnv) (f : AbortSignal)
    (hsig : options.signal = some f) :
    (createThumbnail file options env).events.filter isListenerEvent
      = if f 0 then [] else [.addAbortListener, .removeAbortListener] := by
  rw [createThumbnail_events, hsig]
  simp only [pollAborted]
  by_cases h0 : f 0 = true
  · simp [h0]
  · simp only [h0, Bool.false_eq_true, if_false]
    cases env.getDocument file with
    | error e => rfl
    | ok doc => rfl

/-- Witness for C10: on a live signal the listener events are exactly attach
then detach. -/
theorem createThumbnail_abort_listener_removed_witness :
    (createThumbnail "a.pdf" liveOptions sampleEnv).events.filter isListenerEvent
      = [.addAbortListener, .removeAbortListener] := by
  have h := createThumbnail_abort_listener_removed "a.pdf" liveOptions sampleEnv
    (fun _ => false) rfl
  simpa using h

/-! ## The batch orchestrator (`createThumbnails`)

The descriptor filtering, identifier prefixing and undefined-filtering are
translated from `src/src/lib/pdf.ts` lines 54–84.  The bounded worker pool —
`concurrency` workers pulling items from a shared index cursor, writing
results into a pre-sized slot array by original index, counting completions
and reporting progress (errors included, aborted items excluded) — is
modelled from the spec (§4.6), as the snapshot does not contain the latest
revision of `createThumbnails` that its unit tests (`concurrency`,
progress-on-error) exercise.  The single-threaded cooperative interleaving is
represented by an explicit schedule: a list of worker indices, each entry
letting that worker either claim the next unclaimed item or finish its
running item. -/

/-- A caller-supplied file descriptor: an identifier (absent or empty means
"no identifier", JS falsiness) plus arbitrary extra data to preserve. -/
structure FileData (α : Type) where
  file : Option String
  extra : α
  deriving DecidableEq, Repr

/-- The filter `files.filter(d => d.file)` from the source. -/
def hasFile {α : Type} (d : FileData α) : Bool := !(d.file.getD "" == "")

/-- Options of `createThumbnails` (`CreateThumbnailsOptions` in the source):
the single-item options plus `pfx` (the source's identifier-prefix option)
and `concurrency`; `onProgress`/`onError` are observed through the run's
logs. -/
structure CreateThumbnailsOptions where
  output : Option String := none
  scale : Option Int := none
  page : Option Int := none
  pfx : Option String := none
  concurrency : Option Nat := none

/-- Modelled from the spec: the worker count — `concurrency` clamped to
`[1, itemCount]`, unspecified behaving as "all items start concurrently". -/
def numWorkers (concurrency : Option Nat) (itemCount : Nat) : Nat :=
  match concurrency with
  | none => itemCount
  | some c => min (max c 1) itemCount

/-- The mutable state of a batch run: the shared index cursor, each worker's
currently claimed item, the pre-sized slot array (`none` = item not yet
finished, `some r` = the pipeline resolved `r` for it), the shared
completed-counter, and the observed `onProgress`/`onError` call logs. -/
structure BatchState where
  cursor : Nat
  workers : List (Option Nat)
  slots : List (Option (Option Thumbnail))
  completed : Nat
  progressLog : List (Nat × Nat)
  errorLog : List String
  deriving Repr

/-- Modelled from the spec: one cooperative step of worker `w`.  An idle
worker claims the next unclaimed index from the shared cursor; a running
worker finishes its item, writing the pipeline result into the item's slot
and — iff the item did not resolve as aborted — incrementing the shared
counter and invoking `onProgress(completed, total)` (plus `onError` for an
`ErrorThumbnail`). -/
def poolStep (outcome : Nat → Option Thumbnail) (idents : Nat → String)
    (n : Nat) (st : BatchState) (w : Nat) : BatchState :=
  match st.workers[w]? with
  | none => st
  | some none =>
      if st.cursor < n then
        { st with cursor := st.cursor + 1,
                  workers := st.workers.set w (some st.cursor) }
      else st
  | some (some i) =>
      let base : BatchState :=
        { st with workers := st.workers.set w none,
                  slots := st.slots.set i (some (outcome i)) }
      match outcome i with
      | none => base
      | some t =>
          { base with
            completed := st.completed + 1,
            progressLog := st.progressLog ++ [(st.completed + 1, n)],
            errorLog := match t with
              | .errorThumb _ => st.errorLog ++ [idents i]
              | _ => st.errorLog }

/-- The initial pool state: cursor at zero, `w` idle workers, `n` empty
slots. -/
def initBatchState (n w : Nat) : BatchState :=
  ⟨0, List.replicate w none, List.replicate n none, 0, [], []⟩

/-- Run the pool under a given cooperative schedule. -/
def runPool (outcome : Nat → Option Thumbnail) (idents : Nat → String)
    (n w : Nat) (schedule : List Nat) : BatchState :=
  schedule.foldl (poolStep outcome idents n) (initBatchState n w)

/-- Every item has finished. -/
def BatchComplete (st : BatchState) : Bool := st.slots.all Option.isSome

/-- The returned list: the slot array with unfinished and aborted (undefined)
entries filtered out, each kept result merged with its descriptor. -/
def collectResults {α : Type} :
    List (FileData α) → List (Option (Option Thumbnail)) →
      List (FileData α × Thumbnail)
  | d :: ds, some (some t) :: ss => (d, t) :: collectResults ds ss
  | _ :: ds, _ :: ss => collectResults ds ss
  | _, _ => []

/-- The spec's description of the batch output, stated independently of the
pool: the non-aborted results of the filtered set, in its input order. -/
def expectedOutput {α : Type} (outcome : Nat → Option Thumbnail) :
    Nat → List (FileData α) → List (FileData α × Thumbnail)
  | _, [] => []
  | i, d :: ds =>
      match outcome i with
      | some t => (d, t) :: expectedOutput outcome (i + 1) ds
      | none => expectedOutput outcome (i + 1) ds

/-- The resolved identifier of item `i`: the prefix prepended to the
descriptor's file name (source line 72). -/
def itemIdent {α : Type} (opts : CreateThumbnailsOptions)
    (validFiles : List (FileData α)) (i : Nat) : String :=
  (opts.pfx.getD "") ++ ((validFiles[i]?.map fun d => d.file.getD "").getD "")

/-- The pipeline outcome of item `i`: `createThumbnail` on the prefixed
identifier with the batch options and that item's view of the shared
signal. -/
def itemOutcome {α : Type} (opts : CreateThumbnailsOptions) (env : PdfEnv)
    (itemSig : Nat → Option AbortSignal) (validFiles : List (FileData α))
    (i : Nat) : Option Thumbnail :=
  (createThumbnail (itemIdent opts validFiles i)
    ⟨opts.output, opts.scale, opts.page, itemSig i⟩ env).result

/-- Function `createThumbnails`, returning the final pool state together with the
result list.  Empty input and a pre-aborted token return immediately with no
pipeline invocation (source lines 55–61). -/
def createThumbnailsFull {α : Type} (files : List (FileData α))
    (opts : CreateThumbnailsOptions) (env : PdfEnv)
    (itemSig : Nat → Option AbortSignal) (preAborted : Bool)
    (schedule : List Nat) : BatchState × List (FileData α × Thumbnail) :=
  if files.isEmpty then (initBatchState 0 0, [])
  else if preAborted then (initBatchState 0 0, [])
  else
    let validFiles := files.filter hasFile
    let n := validFiles.length
    let final := runPool (itemOutcome opts env itemSig validFiles)
      (itemIdent opts validFiles) n (numWorkers opts.concurrency n) schedule
    (final, collectResults validFiles final.slots)

/-- The result list of a batch run. -/
def createThumbnails {α : Type} (files : List (FileData α))
    (opts : CreateThumbnailsOptions) (env : PdfEnv)
    (itemSig : Nat → Option AbortSignal) (preAborted : Bool)
    (schedule : List Nat) : List (FileData α × Thumbnail) :=
  (createThumbnailsFull files opts env itemSig preAborted schedule).2

/-! ## Pool invariants -/

/-- A slot is filled with a populated (non-aborted) result. -/
def isFilledPopulated : Option (Option Thumbnail) → Bool
  | some (some _) => true
  | _ => false

/-- Counting under a pointwise update of an element the predicate rejects. -/
theorem countP_set_of_not {β : Type} (p : β → Bool) :
    ∀ (l : List β) (i : Nat) (a b : β), l[i]? = some a → p a = false →
      (l.set i b).countP p = l.countP p + (if p b then 1 else 0) := by
  intro l
  induction l with
  | nil => intro i a b h; simp at h
  | cons x xs ih =>
      intro i a b hget hpa
      cases i with
      | zero =>
          simp only [List.getElem?_cons_zero, Option.some_inj] at hget
          subst hget
          simp [List.countP_cons, hpa]
      | succ j =>
          simp only [List.getElem?_cons_succ] at hget
          simp only [List.set_cons_succ, List.countP_cons, ih j a b hget hpa]
          omega

/-- The pool invariant: sizes, cursor bound, slot contents determined by the
item outcomes, unclaimed slots empty, running workers hold distinct claimed
indices below the cursor with still-empty slots, the completed counter counts
the populated slots, and the progress log is `(1, n), …, (completed, n)`. -/
def BatchInv (outcome : Nat → Option Thumbnail) (n : Nat) (st : BatchState) :
    Prop :=
  st.slots.length = n
  ∧ st.cursor ≤ n
  ∧ (∀ (i : Nat) (s : Option (Option Thumbnail)),
      st.slots[i]? = some s → s = none ∨ s = some (outcome i))
  ∧ (∀ (i : Nat) (s : Option (Option Thumbnail)),
      st.cursor ≤ i → st.slots[i]? = some s → s = none)
  ∧ (∀ (w i : Nat), st.workers[w]? = some (some i) →
      i < st.cursor ∧ st.slots[i]? = some none)
  ∧ (∀ (w1 w2 i : Nat), st.workers[w1]? = some (some i) →
      st.workers[w2]? = some (some i) → w1 = w2)
  ∧ st.completed = st.slots.countP isFilledPopulated
  ∧ st.progressLog = (List.range st.completed).map fun j => (j + 1, n)

/-- The initial state satisfies the invariant. -/
theorem initBatchState_inv (outcome : Nat → Option Thumbnail) (n w : Nat) :
    BatchInv outcome n (initBatchState n w) := by
  unfold BatchInv initBatchState
  refine ⟨by simp, Nat.zero_le n, ?_, ?_, ?_, ?_, ?_, rfl⟩
  · intro i s h
    simp only [List.getElem?_replicate] at h
    split at h
    · exact Or.inl (Option.some_inj.mp h).symm
    · exact absurd h (by simp)
  · intro i s _ h
    simp only [List.getElem?_replicate] at h
    split at h
    · exact (Option.some_inj.mp h).symm
    · exact absurd h (by simp)
  · intro w1 i h
    simp only [List.getElem?_replicate] at h
    split at h <;> simp at h
  · intro w1 w2 i h1 h2
    simp only [List.getElem?_replicate] at h1
    split at h1 <;> simp at h1
  · show (0 : Nat)
      = (List.replicate n (none : Option (Option Thumbnail))).countP isFilledPopulated
    induction n with
    | zero => rfl
    | succ m ih =>
        simp only [List.replicate_succ, List.countP_cons]
        simpa [isFilledPopulated] using ih

/-- One cooperative step preserves the pool invariant. -/
theorem poolStep_inv (outcome : Nat → Option Thumbnail) (idents : Nat → String)
    (n : Nat) (st : BatchState) (w : Nat) (h : BatchInv outcome n st) :
    BatchInv outcome n (poolStep outcome idents n st w) := by
  obtain ⟨hlen, hcur, hslots, hunf, hwk, hdist, hcount, hlog⟩ := h
  cases hw : st.workers[w]? with
  | none =>
      simp only [poolStep, hw]
      exact ⟨hlen, hcur, hslots, hunf, hwk, hdist, hcount, hlog⟩
  | some ow =>
      have hwlt : w < st.workers.length := (List.getElem?_eq_some.mp hw).1
      cases ow with
      | none =>
          by_cases hc : st.cursor < n
          · simp only [poolStep, hw, if_pos hc]
            unfold BatchInv
            dsimp only
            refine ⟨hlen, by omega, hslots, ?_, ?_, ?_, hcount, hlog⟩
            · intro i s hi hg
              exact hunf i s (by omega) hg
            · intro w1 i hg
              by_cases hww : w1 = w
              · subst hww
                rw [List.getElem?_set_eq_of_lt _ hwlt] at hg
                have hic : i = st.cursor := by
                  injection hg with hg2
                  injection hg2 with hg3
                  exact hg3.symm
                subst hic
                refine ⟨by omega, ?_⟩
                have hlt : st.cursor < st.slots.length := by omega
                have := hunf st.cursor st.slots[st.cursor] (le_refl st.cursor)
                  (List.getElem?_eq_getElem hlt)
                rw [List.getElem?_eq_getElem hlt, this]
              · rw [List.getElem?_set_ne (fun he => hww he.symm)] at hg
                obtain ⟨h1, h2⟩ := hwk w1 i hg
                exact ⟨by omega, h2⟩
            · intro w1 w2 i hg1 hg2
              by_cases hw1 : w1 = w <;> by_cases hw2 : w2 = w
              · rw [hw1, hw2]
              · subst hw1
                rw [List.getElem?_set_eq_of_lt _ hwlt] at hg1
                rw [List.getElem?_set_ne (fun he => hw2 he.symm)] at hg2
                have hic : i = st.cursor := by
                  injection hg1 with hg1a
                  injection hg1a with hg1b
                  exact hg1b.symm
                obtain ⟨hlt2, _⟩ := hwk w2 i hg2
                omega
              · subst hw2
                rw [List.getElem?_set_eq_of_lt _ hwlt] at hg2
                rw [List.getElem?_set_ne (fun he => hw1 he.symm)] at hg1
                have hic : i = st.cursor := by
                  injection hg2 with hg2a
                  injection hg2a with hg2b
                  exact hg2b.symm
                obtain ⟨hlt1, _⟩ := hwk w1 i hg1
                omega
              · rw [List.getElem?_set_ne (fun he => hw1 he.symm)] at hg1
                rw [List.getElem?_set_ne (fun he => hw2 he.symm)] at hg2
                exact hdist w1 w2 i hg1 hg2
          · simp only [poolStep, hw, if_neg hc]
            exact ⟨hlen, hcur, hslots, hunf, hwk, hdist, hcount, hlog⟩
      | some i =>
          obtain ⟨hic, hsloti⟩ := hwk w i hw
          have hilt : i < st.slots.length := (List.getElem?_eq_some.mp hsloti).1
          have hslots' : ∀ (i' : Nat) (s : Option (Option Thumbnail)),
              (st.slots.set i (some (outcome i)))[i']? = some s →
                s = none ∨ s = some (outcome i') := by
            intro i' s hg
            by_cases hii : i' = i
            · subst hii
              rw [List.getElem?_set_eq_of_lt _ hilt] at hg
              injection hg with hg2
              exact Or.inr hg2.symm
            · rw [List.getElem?_set_ne (fun he => hii he.symm)] at hg
              exact hslots i' s hg
          have hunf' : ∀ (i' : Nat) (s : Option (Option Thumbnail)),
              st.cursor ≤ i' → (st.slots.set i (some (outcome i)))[i']? = some s →
                s = none := by
            intro i' s hge hg
            have hii : i' ≠ i := by omega
            rw [List.getElem?_set_ne (fun he => hii he.symm)] at hg
            exact hunf i' s hge hg
          have hwk' : ∀ (w1 i' : Nat),
              (st.workers.set w none)[w1]? = some (some i') →
                i' < st.cursor ∧ (st.slots.set i (some (outcome i)))[i']?
                  = some none := by
            intro w1 i' hg
            by_cases hww : w1 = w
            · subst hww
              rw [List.getElem?_set_eq_of_lt _ hwlt] at hg
              injection hg with hg2
              cases hg2
            · rw [List.getElem?_set_ne (fun he => hww he.symm)] at hg
              obtain ⟨h1, h2⟩ := hwk w1 i' hg
              have hii : i' ≠ i := by
                intro he
                exact hww (hdist w1 w i' hg (he ▸ hw))
              rw [List.getElem?_set_ne (fun he => hii he.symm)]
              exact ⟨h1, h2⟩
          have hdist' : ∀ (w1 w2 i' : Nat),
              (st.workers.set w none)[w1]? = some (some i') →
                (st.workers.set w none)[w2]? = some (some i') → w1 = w2 := by
            intro w1 w2 i' hg1 hg2
            by_cases hw1 : w1 = w
            · subst hw1
              rw [List.getElem?_set_eq_of_lt _ hwlt] at hg1
              injection hg1 with hg1a
              cases hg1a
            · by_cases hw2 : w2 = w
              · subst hw2
                rw [List.getElem?_set_eq_of_lt _ hwlt] at hg2
                injection hg2 with hg2a
                cases hg2a
              · rw [List.getElem?_set_ne (fun he => hw1 he.symm)] at hg1
                rw [List.getElem?_set_ne (fun he => hw2 he.symm)] at hg2
                exact hdist w1 w2 i' hg1 hg2
          have hcnt : (st.slots.set i (some (outcome i))).countP isFilledPopulated
              = st.slots.countP isFilledPopulated
                + (if isFilledPopulated (some (outcome i)) then 1 else 0) :=
            countP_set_of_not isFilledPopulated st.slots i none (some (outcome i))
              hsloti rfl
          have hlen' : (st.slots.set i (some (outcome i))).length = n := by
            rw [List.length_set]; exact hlen
          cases ho : outcome i with
          | none =>
              simp only [poolStep, hw, ho]
              rw [ho] at hlen'
              refine ⟨hlen', hcur, ?_, ?_, ?_, ?_, ?_, hlog⟩
              · rw [ho] at hslots'; exact hslots'
              · rw [ho] at hunf'; exact hunf'
              · rw [ho] at hwk'; exact hwk'
              · exact hdist'
              · rw [ho] at hcnt
                rw [hcnt]
                simp [isFilledPopulated, hcount]
          | some t =>
              simp only [poolStep, hw, ho]
              rw [ho] at hlen'
              refine ⟨hlen', hcur, ?_, ?_, ?_, ?_, ?_, ?_⟩
              · rw [ho] at hslots'; exact hslots'
              · rw [ho] at hunf'; exact hunf'
              · rw [ho] at hwk'; exact hwk'
              · exact hdist'
              · rw [ho] at hcnt
                rw [hcnt]
                simp [isFilledPopulated, hcount]
              · show st.progressLog ++ [(st.completed + 1, n)]
                  = (List.range (st.completed + 1)).map fun j => (j + 1, n)
                rw [hlog, List.range_succ, List.map_append]
                rfl

/-- The invariant holds after any schedule. -/
theorem runPool_inv (outcome : Nat → Option Thumbnail) (idents : Nat → String)
    (n w : Nat) (schedule : List Nat) :
    BatchInv outcome n (runPool outcome idents n w schedule) := by
  unfold runPool
  have hgen : ∀ (sched : List Nat) (st : BatchState), BatchInv outcome n st →
      BatchInv outcome n (sched.foldl (poolStep outcome idents n) st) := by
    intro sched
    induction sched with
    | nil => intro st h; exact h
    | cons x xs ih =>
        intro st h
        exact ih _ (poolStep_inv outcome idents n st x h)
  exact hgen schedule _ (initBatchState_inv outcome n w)

/-- In a complete run every slot holds its item's pipeline outcome. -/
theorem slots_of_complete (outcome : Nat → Option Thumbnail) (n : Nat)
    (st : BatchState) (hinv : BatchInv outcome n st)
    (hc : BatchComplete st = true) :
    st.slots = (List.range n).map fun i => some (outcome i) := by
  obtain ⟨hlen, -, hslots, -, -, -, -, -⟩ := hinv
  apply List.ext_getElem?
  intro i
  by_cases hi : i < n
  · have hi2 : i < st.slots.length := by omega
    have hget : st.slots[i]? = some st.slots[i] := List.getElem?_eq_getElem hi2
    have hmem : st.slots[i] ∈ st.slots := List.getElem_mem hi2
    have hsome : (st.slots[i]).isSome = true := by
      have := List.all_eq_true.mp hc _ hmem
      exact this
    obtain ⟨r, hr⟩ := Option.isSome_iff_exists.mp hsome
    have := hslots i st.slots[i] hget
    rw [hr] at this
    cases this with
    | inl hcontra => cases hcontra
    | inr heq =>
        rw [List.getElem?_map, List.getElem?_range hi, hget, hr, heq]
        rfl
  · have h1 : st.slots[i]? = none := by
      rw [List.getElem?_eq_none]
      omega
    have h2 : ((List.range n).map fun i => some (outcome i))[i]? = none := by
      rw [List.getElem?_eq_none]
      simp only [List.length_map, List.length_range]
      omega
    rw [h1, h2]

/-- Collecting filled slots produces exactly the spec's expected output. -/
theorem collectResults_eq_expected {α : Type} (outcome : Nat → Option Thumbnail) :
    ∀ (ds : List (FileData α)) (k : Nat),
      collectResults ds ((List.range' k ds.length).map fun i => some (outcome i))
        = expectedOutput outcome k ds := by
  intro ds
  induction ds with
  | nil => intro k; rfl
  | cons d rest ih =>
      intro k
      have hr : List.range' k (d :: rest).length = k :: List.range' (k + 1) rest.length :=
        List.range'_succ k rest.length 1
      rw [hr, List.map_cons]
      cases ho : outcome k with
      | none =>
          simp only [expectedOutput, ho]
          exact ih (k + 1)
      | some t =>
          simp only [expectedOutput, ho]
          show (d, t) :: collectResults rest
              ((List.range' (k + 1) rest.length).map fun i => some (outcome i))
            = (d, t) :: expectedOutput outcome (k + 1) rest
          rw [ih (k + 1)]

/-- With one worker per item, the schedule that steps workers `0, …, k−1`
once each leaves workers `0, …, k−1` each running its own item: nothing
forces any item to wait for another. -/
theorem runPool_range_claims (outcome : Nat → Option Thumbnail)
    (idents : Nat → String) (n : Nat) :
    ∀ k, k ≤ n →
      runPool outcome idents n n (List.range k)
        = ⟨k, (List.range n).map (fun j => if j < k then some j else none),
            List.replicate n none, 0, [], []⟩ := by
  intro k
  induction k with
  | zero =>
      intro _
      unfold runPool initBatchState
      rw [List.range_zero, List.foldl_nil]
      have : (List.range n).map (fun j => if j < 0 then some j else none)
          = List.replicate n (none : Option Nat) := by
        have h1 : (List.range n).map (fun j => if j < 0 then some j else none)
            = (List.range n).map (fun _ => none) := by
          apply List.map_congr_left
          intro a _
          rw [if_neg (by omega)]
        rw [h1, List.map_const', List.length_range]
      rw [this]
  | succ m ih =>
      intro hk
      have hm : m ≤ n := by omega
      unfold runPool
      rw [List.range_succ, List.foldl_append, List.foldl_cons, List.foldl_nil]
      have hprev := ih hm
      unfold runPool at hprev
      rw [hprev]
      unfold poolStep
      have hwlt : m < ((List.range n).map
          (fun j => if j < m then some j else none)).length := by
        rw [List.length_map, List.length_range]; omega
      have hget : ((List.range n).map
          (fun j => if j < m then some j else none))[m]? = some none := by
        rw [List.getElem?_map, List.getElem?_range (by omega : m < n)]
        simp only [Option.map_some']
        rw [if_neg (by omega)]
      rw [hget]
      simp only [if_pos (show m < n by omega)]
      have hset : ((List.range n).map
            (fun j => if j < m then some j else none)).set m (some m)
          = (List.range n).map (fun j => if j < m + 1 then some j else none) := by
        apply List.ext_getElem?
        intro i
        by_cases hi : i < n
        · by_cases him : i = m
          · subst him
            rw [List.getElem?_set_eq_of_lt _ hwlt]
            rw [List.getElem?_map, List.getElem?_range hi]
            simp only [Option.map_some']
            rw [if_pos (by omega)]
          · rw [List.getElem?_set_ne (fun he => him he.symm)]
            rw [List.getElem?_map, List.getElem?_range hi]
            rw [List.getElem?_map, List.getElem?_range hi]
            simp only [Option.map_some']
            by_cases hlt : i < m
            · rw [if_pos hlt, if_pos (by omega)]
            · rw [if_neg hlt, if_neg (by omega)]
        · rw [List.getElem?_eq_none (by
              rw [List.length_set, List.length_map, List.length_range]; omega)]
          rw [List.getElem?_eq_none (by
              rw [List.length_map, List.length_range]; omega)]
      rw [hset]

/-- A complete run's final slots, counter and progress log, characterised by
the item outcomes alone — independent of the schedule and the worker count. -/
theorem runPool_complete_char (outcome : Nat → Option Thumbnail)
    (idents : Nat → String) (n w : Nat) (schedule : List Nat)
    (hc : BatchComplete (runPool outcome idents n w schedule) = true) :
    (runPool outcome idents n w schedule).slots
        = ((List.range n).map fun i => some (outcome i))
    ∧ (runPool outcome idents n w schedule).completed
        = ((List.range n).filter fun i => (outcome i).isSome).length
    ∧ (runPool outcome idents n w schedule).progressLog
        = (List.range (((List.range n).filter fun i =>
            (outcome i).isSome).length)).map fun j => (j + 1, n) := by
  have hinv := runPool_inv outcome idents n w schedule
  have hslots := slots_of_complete outcome n _ hinv hc
  obtain ⟨-, -, -, -, -, -, hcount, hlog⟩ := hinv
  have hcomp : (runPool outcome idents n w schedule).completed
      = ((List.range n).filter fun i => (outcome i).isSome).length := by
    rw [hcount, hslots, List.countP_map]
    have hcg : List.countP (isFilledPopulated ∘ fun i => some (outcome i))
          (List.range n)
        = List.countP (fun i => (outcome i).isSome) (List.range n) :=
      List.countP_congr (fun a _ => by
        cases ho : outcome a <;> simp [Function.comp, isFilledPopulated, ho])
    rw [hcg]
    exact List.countP_eq_length_filter _ _
  refine ⟨hslots, hcomp, ?_⟩
  rw [hlog, hcomp]

/-- The final pool state of a non-empty, non-pre-aborted batch call. -/
theorem createThumbnailsFull_state {α : Type} (files : List (FileData α))
    (opts : CreateThumbnailsOptions) (env : PdfEnv)
    (itemSig : Nat → Option AbortSignal) (schedule : List Nat)
    (hne : files.isEmpty = false) :
    (createThumbnailsFull files opts env itemSig false schedule).1
      = runPool (itemOutcome opts env itemSig (files.filter hasFile))
          (itemIdent opts (files.filter hasFile)) (files.filter hasFile).length
          (numWorkers opts.concurrency (files.filter hasFile).length)
          schedule := by
  unfold createThumbnailsFull
  rw [hne]
  rfl

/-- The result list of a non-empty, non-pre-aborted batch call. -/
theorem createThumbnails_eq_collect {α : Type} (files : List (FileData α))
    (opts : CreateThumbnailsOptions) (env : PdfEnv)
    (itemSig : Nat → Option AbortSignal) (schedule : List Nat)
    (hne : files.isEmpty = false) :
    createThumbnails files opts env itemSig false schedule
      = collectResults (files.filter hasFile)
          (runPool (itemOutcome opts env itemSig (files.filter hasFile))
            (itemIdent opts (files.filter hasFile)) (files.filter hasFile).length
            (numWorkers opts.concurrency (files.filter hasFile).length)
            schedule).slots := by
  unfold createThumbnails createThumbnailsFull
  rw [hne]
  rfl

/-! ## Claim C2: progress is reported once per non-aborted item -/

/-- C2: in a complete batch run, the shared completed-counter ends at the
number of filtered items whose pipeline call resolved populated (success or
`ErrorThumbnail`), and `onProgress` is invoked exactly once per such item, in
counter order `(1, total), …, (m, total)` with `total` the filtered item
count — items that resolved as aborted (`undefined`) trigger no call. -/
theorem createThumbnails_progress_counting {α : Type}
    (files : List (FileData α)) (opts : CreateThumbnailsOptions) (env : PdfEnv)
    (itemSig : Nat → Option AbortSignal) (schedule : List Nat)
    (hc : BatchComplete
      (createThumbnailsFull files opts env itemSig false schedule).1 = true) :
    (createThumbnailsFull files opts env itemSig false schedule).1.progressLog
      = (List.range (((List.range (files.filter hasFile).length).filter fun i =>
          (itemOutcome opts env itemSig (files.filter hasFile) i).isSome).length)).map
          (fun j => (j + 1, (files.filter hasFile).length))
    ∧ (createThumbnailsFull files opts env itemSig false schedule).1.completed
        = ((List.range (files.filter hasFile).length).filter fun i =>
            (itemOutcome opts env itemSig (files.filter hasFile) i).isSome).length := by
  cases hne : files.isEmpty with
  | true =>
      have hnil : files = [] := List.isEmpty_iff.mp hne
      subst hnil
      exact ⟨rfl, rfl⟩
  | false =>
      have hst := createThumbnailsFull_state files opts env itemSig schedule hne
      rw [hst] at hc ⊢
      obtain ⟨-, hcomp, hlogc⟩ := runPool_complete_char _ _ _ _ schedule hc
      exact ⟨hlogc, hcomp⟩

/-- Witness for C2: a two-item batch (one success, one load error) under one
worker reports progress `(1, 2), (2, 2)`. -/
theorem createThumbnails_progress_counting_witness :
    (createThumbnailsFull
        [(⟨some "a.pdf", ()⟩ : FileData Unit), ⟨some "missing.pdf", ()⟩, ⟨none, ()⟩]
        ⟨none, none, none, none, some 1⟩ sampleEnv (fun _ => none) false
        [0, 0, 0, 0]).1.progressLog
      = (List.range (((List.range 2).filter fun i =>
          (itemOutcome ⟨none, none, none, none, some 1⟩ sampleEnv (fun _ => none)
            ([(⟨some "a.pdf", ()⟩ : FileData Unit), ⟨some "missing.pdf", ()⟩,
              ⟨none, ()⟩].filter hasFile) i).isSome).length)).map
          (fun j => (j + 1, 2)) :=
  (createThumbnails_progress_counting
    [(⟨some "a.pdf", ()⟩ : FileData Unit), ⟨some "missing.pdf", ()⟩, ⟨none, ()⟩]
    ⟨none, none, none, none, some 1⟩ sampleEnv (fun _ => none) [0, 0, 0, 0]
    (by decide)).1

/-! ## Claim C5: bounded worker pool over a shared cursor -/

/-- C5: the batch processes the filtered set through a worker pool —
a specified `concurrency` is clamped to `[1, itemCount]`, an unspecified one
yields one worker per item; in a complete run every filtered item's slot
holds exactly its own pipeline outcome (each index claimed and processed
once, whatever the schedule); and with unspecified concurrency the schedule
stepping each worker once puts every item in flight simultaneously ("all
items start concurrently"). -/
theorem createThumbnails_worker_pool {α : Type} (files : List (FileData α))
    (opts : CreateThumbnailsOptions) (env : PdfEnv)
    (itemSig : Nat → Option AbortSignal) (schedule : List Nat)
    (hc : BatchComplete
      (createThumbnailsFull files opts env itemSig false schedule).1 = true) :
    (∀ c m, 1 ≤ m → 1 ≤ numWorkers (some c) m ∧ numWorkers (some c) m ≤ m)
    ∧ (∀ m, numWorkers none m = m)
    ∧ ((createThumbnailsFull files opts env itemSig false schedule).1.slots
        = (List.range (files.filter hasFile).length).map fun i =>
            some (itemOutcome opts env itemSig (files.filter hasFile) i))
    ∧ (∀ i, i < (files.filter hasFile).length →
        (runPool (itemOutcome opts env itemSig (files.filter hasFile))
          (itemIdent opts (files.filter hasFile))
          (files.filter hasFile).length
          (numWorkers none (files.filter hasFile).length)
          (List.range (files.filter hasFile).length)).workers[i]?
            = some (some i)) := by
  refine ⟨?_, fun m => rfl, ?_, ?_⟩
  · intro c m hm
    show 1 ≤ min (max c 1) m ∧ min (max c 1) m ≤ m
    omega
  · cases hne : files.isEmpty with
    | true =>
        have hnil : files = [] := List.isEmpty_iff.mp hne
        subst hnil
        rfl
    | false =>
        have hst := createThumbnailsFull_state files opts env itemSig schedule hne
        rw [hst] at hc ⊢
        exact (runPool_complete_char _ _ _ _ schedule hc).1
  · intro i hi
    have hclaims := runPool_range_claims
      (itemOutcome opts env itemSig (files.filter hasFile))
      (itemIdent opts (files.filter hasFile)) (files.filter hasFile).length
      (files.filter hasFile).length (le_refl _)
    show (runPool _ _ _ (files.filter hasFile).length _).workers[i]? = _
    rw [hclaims]
    show ((List.range (files.filter hasFile).length).map fun j =>
        if j < (files.filter hasFile).length then some j else none)[i]? = _
    rw [List.getElem?_map, List.getElem?_range hi]
    simp only [Option.map_some']
    rw [if_pos hi]

/-- Witness for C5: clamping at a concrete worker count. -/
theorem createThumbnails_worker_pool_witness :
    1 ≤ numWorkers (some 7) 2 ∧ numWorkers (some 7) 2 ≤ 2 :=
  (createThumbnails_worker_pool
    [(⟨some "a.pdf", ()⟩ : FileData Unit), ⟨some "missing.pdf", ()⟩, ⟨none, ()⟩]
    ⟨none, none, none, none, some 1⟩ sampleEnv (fun _ => none) [0, 0, 0, 0]
    (by decide)).1 7 2 (by decide)

/-! ## Claim C7: output is the filtered set's non-aborted results, in order -/

/-- C7: the list returned by a complete batch run is exactly the non-aborted
results of the filtered set, in the input order of that filtered set
regardless of schedule (completion order), with no `undefined` entries —
aborted items contribute nothing while successes and error results remain. -/
theorem createThumbnails_output_order {α : Type} (files : List (FileData α))
    (opts : CreateThumbnailsOptions) (env : PdfEnv)
    (itemSig : Nat → Option AbortSignal) (schedule : List Nat)
    (hc : BatchComplete
      (createThumbnailsFull files opts env itemSig false schedule).1 = true) :
    createThumbnails files opts env itemSig false schedule
      = expectedOutput (itemOutcome opts env itemSig (files.filter hasFile)) 0
          (files.filter hasFile) := by
  cases hne : files.isEmpty with
  | true =>
      have hnil : files = [] := List.isEmpty_iff.mp hne
      subst hnil
      rfl
  | false =>
      rw [createThumbnails_eq_collect files opts env itemSig schedule hne]
      have hst := createThumbnailsFull_state files opts env itemSig schedule hne
      rw [hst] at hc
      obtain ⟨hslots, -, -⟩ := runPool_complete_char _ _ _ _ schedule hc
      rw [hslots, List.range_eq_range']
      exact collectResults_eq_expected _ (files.filter hasFile) 0

/-- Witness for C7 on a concrete three-descriptor batch. -/
theorem createThumbnails_output_order_witness :
    createThumbnails
        [(⟨some "a.pdf", ()⟩ : FileData Unit), ⟨some "missing.pdf", ()⟩, ⟨none, ()⟩]
        ⟨none, none, none, none, some 1⟩ sampleEnv (fun _ => none) false
        [0, 0, 0, 0]
      = expectedOutput
          (itemOutcome ⟨none, none, none, none, some 1⟩ sampleEnv (fun _ => none)
            ([(⟨some "a.pdf", ()⟩ : FileData Unit), ⟨some "missing.pdf", ()⟩,
              ⟨none, ()⟩].filter hasFile)) 0
          ([(⟨some "a.pdf", ()⟩ : FileData Unit), ⟨some "missing.pdf", ()⟩,
            ⟨none, ()⟩].filter hasFile) :=
  createThumbnails_output_order
    [(⟨some "a.pdf", ()⟩ : FileData Unit), ⟨some "missing.pdf", ()⟩, ⟨none, ()⟩]
    ⟨none, none, none, none, some 1⟩ sampleEnv (fun _ => none) [0, 0, 0, 0]
    (by decide)
